import Mathlib

/-!
Verification of the decision-graph engine and its consistency validator.

The definitions below are a shallow embedding of two source files:
* `scripts/validate-decisions.mjs` — the CLI validator over the authored
  dataset (decisions / effects / consumers / tape ordering);
* `public/js/engine/GameEngine.js` — the `DecisionEngine` runtime
  (choice application, player state, export / import, ending selection).

JavaScript `Map`s and JSON objects are modelled as lists keyed by an `id`
field (JSON object keys are unique; `Object.entries` and `Map` iteration
follow insertion order).  JavaScript `Set`s are modelled as duplicate-free
lists in insertion order.  `Date.now()` is passed in as an explicit `now`
argument.  `localStorage` traffic is external to the state transition and is
dropped; `importState` is modelled directly as a restore from the parsed
JSON document.
-/

set_option autoImplicit false

namespace SeedArchive

/-- JSON-ish values: the image of `JSON.parse` on the documents the engine
serializes and restores.  Numbers are integers (every number the engine
writes is an integer: stats, `Date.now()` timestamps). -/
inductive JVal where
  | nul
  | bool (b : Bool)
  | num (n : Int)
  | str (s : String)
  | arr (xs : List JVal)
  | obj (fields : List (String × JVal))

/-- Field lookup on a JSON object, `undefined` as `none`. -/
def jGet : JVal → String → Option JVal
  | .obj fields, k => (fields.find? (fun p => p.1 == k)).map (fun p => p.2)
  | _, _ => none

/-- JavaScript truthiness of a parsed JSON value. -/
def jTruthy : JVal → Bool
  | .nul => false
  | .bool b => b
  | .num n => n != 0
  | .str s => s != ""
  | .arr _ => true
  | .obj _ => true

/-- A memory record appended by a `memory` effect
(`{id, description, timestamp}`). -/
structure Memory where
  id : String
  description : String
  timestamp : Nat
deriving DecidableEq, Repr

/-- A history entry pushed by `makeChoice`
(`{decisionId, optionId, timestamp, tape}`). -/
structure HistEntry where
  decisionId : String
  optionId : String
  timestamp : Nat
  tape : String
deriving DecidableEq, Repr

/-- The engine's `#playerState` object: four numeric stats plus the three
collection-valued own properties (`activeFlags` and `arcFlags` are JS
`Set`s, modelled as duplicate-free lists in insertion order). -/
structure PlayerState where
  trust : Int
  guard : Int
  honesty : Int
  vulnerability : Int
  activeFlags : List String
  memories : List Memory
  arcFlags : List String
deriving DecidableEq, Repr

/-- `#playerState` together with the separate `#history` field. -/
structure EngineState where
  ps : PlayerState
  history : List HistEntry
deriving DecidableEq, Repr

/-- The fresh state built in the `DecisionEngine` constructor and in
`resetState`. -/
def initState : EngineState :=
  { ps := { trust := 0, guard := 0, honesty := 0, vulnerability := 0,
            activeFlags := [], memories := [], arcFlags := [] },
    history := [] }

/-- An authored effect record (`data.effects[id]` with its key).  Fields
that an authored record may omit default to the value JS code observes for
them where that matters (`consumed_by` absent behaves as an empty list in
`!effect?.consumed_by?.length`). -/
structure Effect where
  id : String
  type : String
  stat : String := ""
  delta : Int := 0
  description : String := ""
  consumed_by : List String := []
deriving DecidableEq, Repr

/-- An option of a decision (`{id, effects}`).  Named `COption` because
`Option` is taken in Lean. -/
structure COption where
  id : String
  effects : List String
deriving DecidableEq, Repr

/-- An authored decision (`data.decisions[id]` with its key). -/
structure Decision where
  id : String
  tape : String
  options : List COption
deriving DecidableEq, Repr

/-- An authored consumer (`data.consumers[id]` with its key). -/
structure Consumer where
  id : String
  tape : String
  checks : List String
deriving DecidableEq, Repr

/-- The parsed dataset document: `decisions`, `effects`, `consumers` and
`meta.tapes`. -/
structure Dataset where
  decisions : List Decision
  effects : List Effect
  consumers : List Consumer
  tapes : List String
deriving DecidableEq, Repr

/-- `effects[effectId]` (JSON object keys are unique, so first match). -/
def findEffect (ds : Dataset) (eid : String) : Option Effect :=
  ds.effects.find? (fun e => e.id == eid)

/-- `decisions[decisionId]`. -/
def findDecision (ds : Dataset) (did : String) : Option Decision :=
  ds.decisions.find? (fun d => d.id == did)

/-- The validator's `producedEffects` index: for an effect id, the list of
decision ids pushed for it, one entry per time an option of the decision
lists the effect, in iteration order (validator CHECK 1; the engine's
`load` builds the same traversal). -/
def producersOf (ds : Dataset) (eid : String) : List String :=
  ds.decisions.flatMap (fun d =>
    d.options.flatMap (fun o =>
      (o.effects.filter (fun x => x == eid)).map (fun _ => d.id)))

/-- The validator's `consumedEffects` index and the engine's `#consumers`
map: for an effect id, one entry per matching entry of a consumer's
`checks` list (validator CHECK 2 / engine `load`). -/
def consumersOf (ds : Dataset) (eid : String) : List String :=
  ds.consumers.flatMap (fun c =>
    (c.checks.filter (fun x => x == eid)).map (fun _ => c.id))

/-- The engine's `#producedBy` reverse lookup: `Map.set` is called once per
production occurrence, so the surviving value is the last producer. -/
def producedBy (ds : Dataset) (eid : String) : Option String :=
  (producersOf ds eid).getLast?

/-- CHECK 4 of the validator: a `GHOST_EFFECT` warning is emitted for
`eid` iff `eid` is produced at least once and — skipping `stat` and `arc`
typed effects — it has no consumers and no non-empty inline `consumed_by`
list.  An id produced but absent from the effect catalog reaches the
warning through the optional-chaining path (`effect?.type` is `undefined`,
`!effect?.consumed_by?.length` is `true`). -/
def validatorGhostEffect (ds : Dataset) (eid : String) : Bool :=
  !(producersOf ds eid).isEmpty &&
  (match findEffect ds eid with
   | some e =>
       e.type != "stat" && e.type != "arc" &&
       (consumersOf ds eid).isEmpty && e.consumed_by.isEmpty
   | none => (consumersOf ds eid).isEmpty)

/-- `setsEqual` from the validator: same size and every member of `a` is a
member of `b`. -/
def setsEqual (a b : List String) : Bool :=
  a.length == b.length && a.all (fun x => b.contains x)

/-- CHECK 6, per decision: build `new Set(opt.effects)` for every option
(a JS `Set` is its element list with duplicates collapsed — `dedup` keeps
one copy of each element, and `setsEqual` is order-blind), and flag the
decision when there are at least two options and every set equals the
first. -/
def ghostDecisionCheck (d : Decision) : Bool :=
  let sets := d.options.map (fun o => o.effects.dedup)
  decide (2 ≤ sets.length) && sets.all (fun s => setsEqual s (sets.headD []))

/-- The decision ids for which CHECK 6 pushes a `GHOST_DECISION` error. -/
def ghostDecisionIds (ds : Dataset) : List String :=
  (ds.decisions.filter ghostDecisionCheck).map (fun d => d.id)

/-- The `tapeIndex` object of CHECK 7: `tapeOrder.forEach((tape, i) =>
tapeIndex[tape] = i)` — later assignments overwrite earlier ones. -/
def tapeIndex (tapes : List String) (t : String) : Option Nat :=
  tapes.enum.foldl (fun acc p => if p.2 = t then some p.1 else acc) none

/-- A `BACKWARD_DEPENDENCY` error record (the fields the pushed message and
metadata carry). -/
structure BDError where
  consumerTape : String
  producerTape : String
  effectId : String
deriving DecidableEq, Repr

/-- The "skip this iteration when the lookup came back `undefined`" idiom
of CHECK 7, as a list contribution. -/
def optList {α β : Type} (o : Option α) (f : α → List β) : List β :=
  match o with
  | none => []
  | some a => f a

/-- CHECK 7: for every consumer whose tape has an index, for every entry of
its `checks` list, for every entry in `producedEffects` for that effect,
push an error when the producing decision's tape has an index strictly
greater than the consumer's.  (Consumers with an unknown tape are skipped
with an `UNKNOWN_TAPE` warning; producers with an unknown tape are skipped
silently.) -/
def backwardErrors (ds : Dataset) : List BDError :=
  ds.consumers.flatMap (fun c =>
    optList (tapeIndex ds.tapes c.tape) (fun ci =>
      c.checks.flatMap (fun eid =>
        (producersOf ds eid).flatMap (fun decId =>
          optList (findDecision ds decId) (fun d =>
            optList (tapeIndex ds.tapes d.tape) (fun pi =>
              if ci < pi then [⟨c.tape, d.tape, eid⟩] else []))))))

/-- Modelled from the claim's wording, for comparison with
`backwardErrors`: the distinct triples (consumer, effect in its checks,
decision producing the effect) whose producing tape sits strictly after the
consuming tape in the authored ordering. -/
def bdTriples (ds : Dataset) : List (String × String × String) :=
  (ds.consumers.flatMap (fun c =>
    optList (tapeIndex ds.tapes c.tape) (fun ci =>
      c.checks.flatMap (fun eid =>
        (producersOf ds eid).flatMap (fun decId =>
          optList (findDecision ds decId) (fun d =>
            optList (tapeIndex ds.tapes d.tape) (fun pi =>
              if ci < pi then [(c.id, eid, decId)] else []))))))).dedup

/-- The record `detectGhosts` pushes for a flagged effect. -/
structure GhostRec where
  effectId : String
  type : String
  producedBy : Option String
  description : String
deriving DecidableEq, Repr

/-- The runtime `DecisionEngine.detectGhosts`: walk the effect catalog,
skip `stat` and `arc` effects, and report every effect with no entry in the
consumer index — production and `consumed_by` are not consulted. -/
def detectGhosts (ds : Dataset) : List GhostRec :=
  (ds.effects.filter (fun e =>
      e.type != "stat" && e.type != "arc" && (consumersOf ds e.id).isEmpty)).map
    (fun e => ⟨e.id, e.type, producedBy ds e.id, e.description⟩)

/-- `Set.prototype.add` on a set-as-list: append iff absent. -/
def setAdd (l : List String) (x : String) : List String :=
  if x ∈ l then l else l ++ [x]

/-- `new Set(xs)` on a list of strings: insert left to right. -/
def jsNewSet (l : List String) : List String :=
  l.foldl setAdd []

/-- `Math.max(0, Math.min(100, v))` from the `stat` branch of
`#applyEffect`. -/
def clampStat (v : Int) : Int :=
  max 0 (min 100 v)

/-- Reading `this.#playerState[name]` for the four numeric stat fields;
other names give `none`.  (The three collection-valued own properties are
carried separately in the model and are never the target of an authored
`stat` effect.) -/
def statGet (ps : PlayerState) (name : String) : Option Int :=
  if name == "trust" then some ps.trust
  else if name == "guard" then some ps.guard
  else if name == "honesty" then some ps.honesty
  else if name == "vulnerability" then some ps.vulnerability
  else none

/-- Writing `this.#playerState[name] = v` for the four numeric stat
fields; other names leave the state unchanged. -/
def statSet (ps : PlayerState) (name : String) (v : Int) : PlayerState :=
  if name == "trust" then { ps with trust := v }
  else if name == "guard" then { ps with guard := v }
  else if name == "honesty" then { ps with honesty := v }
  else if name == "vulnerability" then { ps with vulnerability := v }
  else ps

/-- The record `#applyEffect` returns for an applied effect (minus the id,
which `makeChoice` spreads back in). -/
inductive AppliedRec where
  | stat (stat : String) (delta : Int) (newValue : Option Int)
  | flag (flag : String)
  | memory (memory : String)
  | arc (arc : String)
  | unknown (effectId : String)
deriving DecidableEq, Repr

/-- `DecisionEngine.#applyEffect`: `none` (JS `null`) when the effect id is
not in the catalog; otherwise dispatch on the effect type.  The
`hasOwnProperty` guard of the `stat` branch is modelled over the four
numeric stat fields. -/
def applyEffect (cat : List Effect) (effectId : String) (now : Nat)
    (ps : PlayerState) : Option AppliedRec × PlayerState :=
  match cat.find? (fun e => e.id == effectId) with
  | none => (none, ps)
  | some effect =>
      if effect.type == "stat" then
        match statGet ps effect.stat with
        | some v =>
            let ps' := statSet ps effect.stat (clampStat (v + effect.delta))
            (some (.stat effect.stat effect.delta (statGet ps' effect.stat)), ps')
        | none => (some (.stat effect.stat effect.delta none), ps)
      else if effect.type == "flag" then
        (some (.flag effectId),
         { ps with activeFlags := setAdd ps.activeFlags effectId })
      else if effect.type == "memory" then
        (some (.memory effectId),
         { ps with memories :=
             ps.memories ++ [⟨effectId, effect.description, now⟩] })
      else if effect.type == "arc" then
        (some (.arc effectId),
         { ps with arcFlags := setAdd ps.arcFlags effectId })
      else
        (some (.unknown effectId), ps)

/-- The effect loop of `makeChoice`: apply each effect id in order,
collecting `{id, ...result}` for every non-null result. -/
def applyEffects (cat : List Effect) (now : Nat) (l : List String)
    (acc : List (String × AppliedRec)) (ps : PlayerState) :
    List (String × AppliedRec) × PlayerState :=
  match l with
  | [] => (acc, ps)
  | e :: rest =>
      match applyEffect cat e now ps with
      | (none, ps') => applyEffects cat now rest acc ps'
      | (some r, ps') => applyEffects cat now rest (acc ++ [(e, r)]) ps'

/-- The value `makeChoice` returns on success. -/
structure ChoiceResult where
  decision : String
  option : String
  effects : List (String × AppliedRec)
  state : EngineState
deriving DecidableEq, Repr

/-- `DecisionEngine.makeChoice`: throw on an unknown decision or option id
(the thrown branch is the `.error` case, reached before any mutation, so
the engine state is returned unchanged); otherwise push the history entry,
run the effect loop, persist (external, dropped) and return the result. -/
def makeChoice (cat : List Effect) (decs : List Decision) (st : EngineState)
    (decisionId optionId : String) (now : Nat) :
    Except String ChoiceResult × EngineState :=
  match decs.find? (fun d => d.id == decisionId) with
  | none => (.error ("Unknown decision: " ++ decisionId), st)
  | some decision =>
      match decision.options.find? (fun o => o.id == optionId) with
      | none =>
          (.error ("Unknown option: " ++ optionId ++ " for decision " ++ decisionId), st)
      | some opt =>
          let hist := st.history ++
            [{ decisionId := decisionId, optionId := optionId,
               timestamp := now, tape := decision.tape }]
          let r := applyEffects cat now opt.effects [] st.ps
          let st' : EngineState := { ps := r.2, history := hist }
          (.ok { decision := decisionId, option := optionId,
                 effects := r.1, state := st' }, st')

/-- The property names every plain object inherits from
`Object.prototype`.  Bracket access consults the prototype chain, so
`this.#playerState[name]` yields a truthy inherited member (a function,
or the prototype object for `__proto__`) at each of these names whenever
no own property shadows it. -/
def objectProtoNames : List String :=
  ["constructor", "hasOwnProperty", "isPrototypeOf", "propertyIsEnumerable",
   "toLocaleString", "toString", "valueOf", "__proto__",
   "__defineGetter__", "__defineSetter__", "__lookupGetter__",
   "__lookupSetter__"]

/-- The value of `this.#playerState[statName] || 0` in `getStat`: a number
for the four stat fields (`0 || 0` is still `0`), the collection object
itself for the three collection fields (objects are truthy), the truthy
member inherited from `Object.prototype` for the names in
`objectProtoNames`, and `0` (`undefined || 0`) for anything else. -/
inductive GetStatResult where
  | num (n : Int)
  | flags (xs : List String)
  | mems (xs : List Memory)
  | arcs (xs : List String)
  | inherited (name : String)
deriving DecidableEq, Repr

/-- `DecisionEngine.getStat` — a pure read of `#playerState`.  The seven
own properties come first (they shadow the prototype), then the members
inherited from `Object.prototype`, and only a name found nowhere on the
chain evaluates to `undefined || 0 = 0`. -/
def getStat (ps : PlayerState) (name : String) : GetStatResult :=
  if name == "trust" then .num ps.trust
  else if name == "guard" then .num ps.guard
  else if name == "honesty" then .num ps.honesty
  else if name == "vulnerability" then .num ps.vulnerability
  else if name == "activeFlags" then .flags ps.activeFlags
  else if name == "memories" then .mems ps.memories
  else if name == "arcFlags" then .arcs ps.arcFlags
  else if objectProtoNames.contains name then .inherited name
  else .num 0

/-- An ending candidate (`{requires?, min_trust?, min_guard?, ...}`). -/
structure Ending where
  requires : Option (List String) := none
  min_trust : Option Int := none
  min_guard : Option Int := none
  description : String := ""
deriving DecidableEq, Repr

/-- The per-candidate test of `determineEnding`: `continue` (fail) when a
required id is neither an active flag nor an arc flag, when
`ending.min_trust` is truthy and `trust < min_trust`, or when
`ending.min_guard` is truthy and `guard < min_guard`. -/
def endingMatches (ps : PlayerState) (e : Ending) : Bool :=
  (match e.requires with
   | none => true
   | some rs => rs.all (fun f =>
       ps.activeFlags.contains f || ps.arcFlags.contains f)) &&
  (match e.min_trust with
   | none => true
   | some m => !(m != 0 && decide (ps.trust < m))) &&
  (match e.min_guard with
   | none => true
   | some m => !(m != 0 && decide (ps.guard < m)))

/-- The default record `determineEnding` falls through to. -/
def defaultEnding : String × Ending :=
  ("default", { description := "The story continues..." })

/-- `DecisionEngine.determineEnding` over `Object.entries(endings)` in
insertion order: first candidate passing `endingMatches` wins, else the
default record. -/
def determineEnding (ps : PlayerState) (endings : List (String × Ending)) :
    String × Ending :=
  match endings with
  | [] => defaultEnding
  | (eid, e) :: rest =>
      if endingMatches ps e then (eid, e) else determineEnding ps rest

/-- JSON encoding of a memory record (as `getState` / `JSON.stringify`
emit it). -/
def memToJ (m : Memory) : JVal :=
  .obj [("id", .str m.id), ("description", .str m.description),
        ("timestamp", .num m.timestamp)]

/-- JSON encoding of a history entry. -/
def histToJ (h : HistEntry) : JVal :=
  .obj [("decisionId", .str h.decisionId), ("optionId", .str h.optionId),
        ("timestamp", .num h.timestamp), ("tape", .str h.tape)]

/-- `DecisionEngine.getState`, composed with `JSON.parse ∘ JSON.stringify`
(the identity on these documents): the flat snapshot with top-level
`trust` / `guard` / `honesty` / `vulnerability` / `flags` / `memories` /
`arcs` / `history` keys.  `exportState` returns exactly this
serialization. -/
def exportState (st : EngineState) : JVal :=
  .obj [("trust", .num st.ps.trust), ("guard", .num st.ps.guard),
        ("honesty", .num st.ps.honesty),
        ("vulnerability", .num st.ps.vulnerability),
        ("flags", .arr (st.ps.activeFlags.map .str)),
        ("memories", .arr (st.ps.memories.map memToJ)),
        ("arcs", .arr (st.ps.arcFlags.map .str)),
        ("history", .arr (st.history.map histToJ))]

/-- The nested document `#saveState` writes to localStorage (note the
`stats` sub-object — a different shape from `exportState`). -/
def saveStateJ (st : EngineState) : JVal :=
  .obj [("stats", .obj [("trust", .num st.ps.trust),
                        ("guard", .num st.ps.guard),
                        ("honesty", .num st.ps.honesty),
                        ("vulnerability", .num st.ps.vulnerability)]),
        ("flags", .arr (st.ps.activeFlags.map .str)),
        ("memories", .arr (st.ps.memories.map memToJ)),
        ("arcs", .arr (st.ps.arcFlags.map .str)),
        ("history", .arr (st.history.map histToJ))]

/-- Decode a JSON string, `none` otherwise. -/
def jStr? : JVal → Option String
  | .str s => some s
  | _ => none

/-- Decode an array of strings (the shape `flags` / `arcs` carry in every
document the engine writes). -/
def jStrList (v : JVal) : List String :=
  match v with
  | .arr xs => xs.filterMap jStr?
  | _ => []

/-- Decode a memory record. -/
def memOfJ (v : JVal) : Option Memory :=
  match jGet v "id", jGet v "description", jGet v "timestamp" with
  | some (.str i), some (.str d), some (.num t) => some ⟨i, d, t.toNat⟩
  | _, _, _ => none

/-- Decode the `memories` array. -/
def jMemList (v : JVal) : List Memory :=
  match v with
  | .arr xs => xs.filterMap memOfJ
  | _ => []

/-- Decode a history entry. -/
def histOfJ (v : JVal) : Option HistEntry :=
  match jGet v "decisionId", jGet v "optionId", jGet v "timestamp",
        jGet v "tape" with
  | some (.str d), some (.str o), some (.num t), some (.str tp) =>
      some ⟨d, o, t.toNat, tp⟩
  | _, _, _, _ => none

/-- Decode the `history` array. -/
def jHistList (v : JVal) : List HistEntry :=
  match v with
  | .arr xs => xs.filterMap histOfJ
  | _ => []

/-- `Object.assign(this.#playerState, state.stats)`, modelled over the four
numeric stat fields. -/
def assignStats (ps : PlayerState) (v : JVal) : PlayerState :=
  match v with
  | .obj fields =>
      fields.foldl (fun ps kv =>
        match kv.2 with
        | .num n =>
            if kv.1 == "trust" then { ps with trust := n }
            else if kv.1 == "guard" then { ps with guard := n }
            else if kv.1 == "honesty" then { ps with honesty := n }
            else if kv.1 == "vulnerability" then { ps with vulnerability := n }
            else ps
        | _ => ps) ps
  | _ => ps

/-- `DecisionEngine.#restoreState` on an already-parsed document: each of
the five sections is applied only when the corresponding field is truthy,
and every other part of the current state is kept. -/
def restoreState (st : EngineState) (j : JVal) : EngineState :=
  let ps := st.ps
  let ps := match jGet j "stats" with
            | some v => if jTruthy v then assignStats ps v else ps
            | none => ps
  let ps := match jGet j "flags" with
            | some v => if jTruthy v then
                          { ps with activeFlags := jsNewSet (jStrList v) }
                        else ps
            | none => ps
  let ps := match jGet j "memories" with
            | some v => if jTruthy v then { ps with memories := jMemList v }
                        else ps
            | none => ps
  let ps := match jGet j "arcs" with
            | some v => if jTruthy v then
                          { ps with arcFlags := jsNewSet (jStrList v) }
                        else ps
            | none => ps
  let hist := match jGet j "history" with
              | some v => if jTruthy v then jHistList v else st.history
              | none => st.history
  ⟨ps, hist⟩

/-- `DecisionEngine.importState` on a document that parses: the string is
written to localStorage and `#restoreState` re-reads it, so the net state
transition is a restore from the parsed document. -/
def importState (st : EngineState) (j : JVal) : EngineState :=
  restoreState st j

/-! Concrete datasets and states used as witnesses and counterexamples. -/

/-- A decision whose two options produce the same effect set up to order
and duplication. -/
def ghostD : Decision :=
  ⟨"dg", "t1", [⟨"a", ["e1", "e2", "e1"]⟩, ⟨"b", ["e2", "e1"]⟩]⟩

/-- Dataset holding `ghostD` next to a decision with genuinely distinct
options and a single-option decision. -/
def gdDs : Dataset :=
  { decisions := [ghostD,
                  ⟨"dok", "t1", [⟨"a", ["e1"]⟩, ⟨"b", ["e2"]⟩]⟩,
                  ⟨"done", "t1", [⟨"a", ["e1"]⟩]⟩],
    effects := [], consumers := [], tapes := ["t1"] }

/-- The backward-dependency scenario of the spec: tapes `[tape1, tape2]`,
one consumer in `tape1` checking `e_foo`, one decision in `tape2`
producing it once. -/
def scenDs2 : Dataset :=
  { decisions := [⟨"d2", "tape2", [⟨"o1", ["e_foo"]⟩]⟩],
    effects := [{ id := "e_foo", type := "flag" }],
    consumers := [⟨"c1", "tape1", ["e_foo"]⟩],
    tapes := ["tape1", "tape2"] }

/-- Like `scenDs2`, but the decision in `tape2` produces `e_foo` from both
of its options — still a single (consumer, effect, decision) triple. -/
def dupDs2 : Dataset :=
  { decisions := [⟨"d2", "tape2", [⟨"o1", ["e_foo"]⟩, ⟨"o2", ["e_foo"]⟩]⟩],
    effects := [{ id := "e_foo", type := "flag" }],
    consumers := [⟨"c1", "tape1", ["e_foo"]⟩],
    tapes := ["tape1", "tape2"] }

/-- A produced flag effect with no consumers but a non-empty inline
`consumed_by` list. -/
def cexDs3 : Dataset :=
  { decisions := [⟨"d1", "t1", [⟨"o1", ["e1"]⟩]⟩],
    effects := [{ id := "e1", type := "flag", consumed_by := ["c_x"] }],
    consumers := [], tapes := ["t1"] }

/-- A produced flag effect with no consumers and no inline override. -/
def wDs3 : Dataset :=
  { decisions := [⟨"d1", "t1", [⟨"o1", ["e_g"]⟩]⟩],
    effects := [{ id := "e_g", type := "flag" }],
    consumers := [], tapes := ["t1"] }

/-- A flag effect defined in the catalog but never produced. -/
def cexDs10 : Dataset :=
  { decisions := [], effects := [{ id := "e_u", type := "flag" }],
    consumers := [], tapes := [] }

/-- The effect record of `wDs10`. -/
def eG10 : Effect := { id := "e_g", type := "flag" }

/-- A produced, catalogued, override-free flag effect with no consumers. -/
def wDs10 : Dataset :=
  { decisions := [⟨"d1", "t1", [⟨"o1", ["e_g"]⟩]⟩],
    effects := [eG10],
    consumers := [], tapes := ["t1"] }

/-- The catalog for the `makeChoice` witness: one flag effect and one
trust-stat effect. -/
def cat45 : List Effect :=
  [{ id := "f1", type := "flag" },
   { id := "s1", type := "stat", stat := "trust", delta := -30 }]

/-- The decision for the `makeChoice` witness: its only option lists a
flag effect, an id absent from the catalog, and a stat effect. -/
def d45 : Decision := ⟨"d1", "t1", [⟨"optA", ["f1", "missing", "s1"]⟩]⟩

/-- Decision catalog holding `d45`. -/
def decs45 : List Decision := [d45]

/-- The option of `d45`. -/
def o45 : COption := ⟨"optA", ["f1", "missing", "s1"]⟩

/-- A source state for the export/import shape-mismatch counterexample:
trust 5 and one active flag. -/
def exportSrc : EngineState :=
  { ps := { trust := 5, guard := 0, honesty := 0, vulnerability := 0,
            activeFlags := ["f1"], memories := [], arcFlags := [] },
    history := [] }

/-- A target state with trust 50 into which the snapshot of `exportSrc`
is imported. -/
def importTarget : EngineState :=
  { ps := { trust := 50, guard := 0, honesty := 0, vulnerability := 0,
            activeFlags := [], memories := [], arcFlags := [] },
    history := [] }

/-- A state with every collection inhabited, for the round-trip witness. -/
def richState : EngineState :=
  { ps := { trust := 7, guard := 3, honesty := 0, vulnerability := 99,
            activeFlags := ["f1", "f2"], memories := [⟨"m1", "met her", 42⟩],
            arcFlags := ["a1"] },
    history := [⟨"d1", "o1", 5, "t1"⟩] }

/-- The ending-determination scenario of the spec. -/
def scenEndings : List (String × Ending) :=
  [("A", { min_trust := some 20 }),
   ("B", { requires := some ["e_x"] }),
   ("default", {})]

/-- A player state with trust 25 and no flags. -/
def ps25 : PlayerState :=
  { trust := 25, guard := 0, honesty := 0, vulnerability := 0,
    activeFlags := [], memories := [], arcFlags := [] }

/-- A trust effect with delta −30. -/
def statMinus30 : Effect :=
  { id := "s1", type := "stat", stat := "trust", delta := -30 }

/-- A trust effect with delta +150. -/
def statPlus150 : Effect :=
  { id := "s2", type := "stat", stat := "trust", delta := 150 }

/-- A player state with trust 10. -/
def psTrust10 : PlayerState :=
  { trust := 10, guard := 0, honesty := 0, vulnerability := 0,
    activeFlags := [], memories := [], arcFlags := [] }

/-- A player state with trust 90. -/
def psTrust90 : PlayerState :=
  { trust := 90, guard := 0, honesty := 0, vulnerability := 0,
    activeFlags := [], memories := [], arcFlags := [] }

/-- Modelled from the claim's wording for C8: a candidate matches iff
every id in its `requires` list (if any) is an active flag or an arc flag,
trust is at least `min_trust` when specified, and guard is at least
`min_guard` when specified. -/
def endingMatchesSpec (ps : PlayerState) (e : Ending) : Bool :=
  (match e.requires with
   | none => true
   | some rs => rs.all (fun f =>
       ps.activeFlags.contains f || ps.arcFlags.contains f)) &&
  (match e.min_trust with
   | none => true
   | some m => decide (m ≤ ps.trust)) &&
  (match e.min_guard with
   | none => true
   | some m => decide (m ≤ ps.guard))

/-! Helper lemmas. -/

/-- Membership in an `optList` contribution. -/
theorem mem_optList {α β : Type} (o : Option α) (f : α → List β) (x : β) :
    x ∈ optList o f ↔ ∃ a, o = some a ∧ x ∈ f a := by
  cases o <;> simp [optList]

/-- Membership in a conditional singleton. -/
theorem mem_ite_singleton {β : Type} (c : Prop) [Decidable c] (y x : β) :
    (x ∈ if c then [y] else []) ↔ c ∧ x = y := by
  split <;> simp_all

/-- The clamp used by the `stat` branch, written the way the spec states
it. -/
theorem clampStat_eq (x : Int) : clampStat x = min 100 (max 0 x) := by
  unfold clampStat
  omega

/-- Reading back the stat field just written. -/
theorem statGet_statSet (ps : PlayerState) (name : String) (v w : Int)
    (hv : statGet ps name = some v) :
    statGet (statSet ps name w) name = some w := by
  unfold statGet at hv ⊢
  unfold statSet
  by_cases h1 : (name == "trust") = true
  · simp [h1]
  · by_cases h2 : (name == "guard") = true
    · simp [h1, h2]
    · by_cases h3 : (name == "honesty") = true
      · simp [h1, h2, h3]
      · by_cases h4 : (name == "vulnerability") = true
        · simp [h1, h2, h3, h4]
        · simp [h1, h2, h3, h4] at hv

/-- `#applyEffect` returns `null` exactly on ids absent from the effect
catalog. -/
theorem applyEffect_fst_eq_none_iff (cat : List Effect) (eid : String)
    (now : Nat) (ps : PlayerState) :
    (applyEffect cat eid now ps).1 = none ↔
      cat.find? (fun e => e.id == eid) = none := by
  unfold applyEffect
  cases hf : cat.find? (fun e => e.id == eid) with
  | none => simp
  | some eff =>
      simp only
      split_ifs <;> (rcases hsg : statGet ps eff.stat with _ | v <;> simp [hsg])

/-- On an id absent from the catalog, `#applyEffect` leaves the player
state untouched. -/
theorem applyEffect_absent (cat : List Effect) (eid : String) (now : Nat)
    (ps : PlayerState) (h : cat.find? (fun e => e.id == eid) = none) :
    applyEffect cat eid now ps = (none, ps) := by
  unfold applyEffect
  rw [h]

/-- The ids collected by the effect loop are exactly the listed ids that
resolve in the catalog, in order. -/
theorem applyEffects_fst (cat : List Effect) (now : Nat) (l : List String) :
    ∀ (acc : List (String × AppliedRec)) (ps : PlayerState),
    (applyEffects cat now l acc ps).1.map Prod.fst =
      acc.map Prod.fst ++
        l.filter (fun eid => (cat.find? (fun e => e.id == eid)).isSome) := by
  induction l with
  | nil => intro acc ps; simp [applyEffects]
  | cons e rest ih =>
      intro acc ps
      by_cases hf : (cat.find? (fun x => x.id == e)).isSome = true
      · rw [Option.isSome_iff_exists] at hf
        obtain ⟨eff, heff⟩ := hf
        have h1 : (applyEffect cat e now ps).1 ≠ none := by
          rw [Ne, applyEffect_fst_eq_none_iff, heff]
          simp
        rcases happ : applyEffect cat e now ps with ⟨r, ps'⟩
        cases r with
        | none => rw [happ] at h1; simp at h1
        | some rec =>
            rw [applyEffects, happ]
            simp only
            rw [ih]
            simp [List.filter_cons, heff]
      · have hnone : cat.find? (fun x => x.id == e) = none := by
          rcases h : cat.find? (fun x => x.id == e) with _ | x
          · exact h
          · rw [h] at hf; simp at hf
        rw [applyEffects, applyEffect_absent cat e now ps hnone]
        simp only
        rw [ih]
        simp [List.filter_cons, hnone]

/-- The state produced by the effect loop is the fold of `#applyEffect`
over just the ids that resolve in the catalog: skipped ids change
nothing. -/
theorem applyEffects_snd (cat : List Effect) (now : Nat) (l : List String) :
    ∀ (acc : List (String × AppliedRec)) (ps : PlayerState),
    (applyEffects cat now l acc ps).2 =
      (l.filter (fun eid => (cat.find? (fun e => e.id == eid)).isSome)).foldl
        (fun ps eid => (applyEffect cat eid now ps).2) ps := by
  induction l with
  | nil => intro acc ps; simp [applyEffects]
  | cons e rest ih =>
      intro acc ps
      by_cases hf : (cat.find? (fun x => x.id == e)).isSome = true
      · rcases happ : applyEffect cat e now ps with ⟨r, ps'⟩
        have hps' : (applyEffect cat e now ps).2 = ps' := by rw [happ]
        cases r with
        | none =>
            exfalso
            have : (applyEffect cat e now ps).1 = none := by rw [happ]
            rw [applyEffect_fst_eq_none_iff] at this
            rw [this] at hf
            simp at hf
        | some rec =>
            rw [applyEffects, happ]
            simp only
            rw [ih]
            simp [List.filter_cons, hf, hps']
      · have hnone : cat.find? (fun x => x.id == e) = none := by
          rcases h : cat.find? (fun x => x.id == e) with _ | x
          · exact h
          · rw [h] at hf; simp at hf
        rw [applyEffects, applyEffect_absent cat e now ps hnone]
        simp only
        rw [ih]
        simp [List.filter_cons, hnone]

/-- Rebuilding a JS `Set` from a duplicate-free element list gives back
the same list. -/
theorem jsNewSet_eq_of_nodup (l : List String) (h : l.Nodup) :
    jsNewSet l = l := by
  suffices H : ∀ acc, (acc ++ l).Nodup → l.foldl setAdd acc = acc ++ l by
    simpa using H [] (by simpa using h)
  clear h
  induction l with
  | nil => intro acc _; simp
  | cons x xs ih =>
      intro acc hacc
      have hx : x ∉ acc := fun hmem =>
        (List.nodup_append.mp hacc).2.2 hmem (List.mem_cons_self x xs)
      have hstep : setAdd acc x = acc ++ [x] := by simp [setAdd, hx]
      have hacc' : ((acc ++ [x]) ++ xs).Nodup := by
        rw [List.append_assoc, List.singleton_append]
        exact hacc
      calc (x :: xs).foldl setAdd acc = xs.foldl setAdd (setAdd acc x) := by
              rw [List.foldl_cons]
        _ = xs.foldl setAdd (acc ++ [x]) := by rw [hstep]
        _ = (acc ++ [x]) ++ xs := ih (acc ++ [x]) hacc'
        _ = acc ++ x :: xs := by rw [List.append_assoc, List.singleton_append]

/-- Decoding the encoded flags / arcs array. -/
theorem jStrList_map_str (l : List String) :
    jStrList (JVal.arr (l.map JVal.str)) = l := by
  show (l.map JVal.str).filterMap jStr? = l
  induction l with
  | nil => rfl
  | cons x xs ih => simp only [List.map_cons, List.filterMap_cons, jStr?]; rw [ih]

/-- Decoding an encoded memory record. -/
theorem memOfJ_memToJ (m : Memory) : memOfJ (memToJ m) = some m := rfl

/-- Decoding the encoded memories array. -/
theorem jMemList_map (l : List Memory) :
    jMemList (JVal.arr (l.map memToJ)) = l := by
  show (l.map memToJ).filterMap memOfJ = l
  induction l with
  | nil => rfl
  | cons m ms ih =>
      simp only [List.map_cons, List.filterMap_cons, memOfJ_memToJ]; rw [ih]

/-- Decoding an encoded history entry. -/
theorem histOfJ_histToJ (h : HistEntry) : histOfJ (histToJ h) = some h := rfl

/-- Decoding the encoded history array. -/
theorem jHistList_map (l : List HistEntry) :
    jHistList (JVal.arr (l.map histToJ)) = l := by
  show (l.map histToJ).filterMap histOfJ = l
  induction l with
  | nil => rfl
  | cons x xs ih =>
      simp only [List.map_cons, List.filterMap_cons, histOfJ_histToJ]; rw [ih]

/-- `setsEqual` on the deduplicated element lists of two JS `Set`s decides
equality of the underlying finite sets. -/
theorem setsEqual_dedup_iff (a b : List String) :
    setsEqual a.dedup b.dedup = true ↔ a.toFinset = b.toFinset := by
  unfold setsEqual
  simp only [Bool.and_eq_true, beq_iff_eq, List.all_eq_true, List.contains,
             List.elem_iff]
  constructor
  · rintro ⟨hlen, hsub⟩
    have hsub' : a.toFinset ⊆ b.toFinset := by
      intro x hx
      rw [List.mem_toFinset] at hx ⊢
      exact List.mem_dedup.mp (hsub x (List.mem_dedup.mpr hx))
    refine Finset.eq_of_subset_of_card_le hsub' ?_
    rw [List.card_toFinset, List.card_toFinset, hlen]
  · intro h
    constructor
    · rw [← List.card_toFinset, ← List.card_toFinset, h]
    · intro x hx
      rw [List.mem_dedup, ← List.mem_toFinset, ← h, List.mem_toFinset,
          ← List.mem_dedup]
      exact hx

/-- In a list whose key projection is duplicate-free, `find?` at a
member's key returns that member. -/
theorem find?_eq_of_nodup_keys {α : Type} [DecidableEq α]
    (l : List α) (key : α → String) (x : α)
    (hnodup : (l.map key).Nodup) (hmem : x ∈ l) :
    l.find? (fun y => key y == key x) = some x := by
  induction l with
  | nil => cases hmem
  | cons z zs ih =>
      rw [List.find?_cons]
      rw [List.mem_cons] at hmem
      rcases hmem with rfl | hmem
      · simp
      · have hne : key z ≠ key x := by
          intro he
          have hz : key x ∈ zs.map key := List.mem_map_of_mem key hmem
          rw [List.map_cons, List.nodup_cons] at hnodup
          exact hnodup.1 (he ▸ hz)
        have hfalse : (key z == key x) = false := by simpa using hne
        rw [hfalse]
        exact ih (by rw [List.map_cons, List.nodup_cons] at hnodup; exact hnodup.2) hmem

/-- CHECK 6 flags a decision exactly when it has at least two options and
the per-option effect sets are pairwise identical. -/
theorem ghostDecisionCheck_iff (d : Decision) :
    ghostDecisionCheck d = true ↔
      (2 ≤ d.options.length ∧ ∀ o1 ∈ d.options, ∀ o2 ∈ d.options,
        o1.effects.toFinset = o2.effects.toFinset) := by
  unfold ghostDecisionCheck
  cases hopts : d.options with
  | nil => simp
  | cons o0 rest =>
      simp only [List.map_cons, List.headD_cons, Bool.and_eq_true, decide_eq_true_eq,
                 List.all_cons, List.all_eq_true, List.length_map, List.length_cons,
                 List.mem_map, forall_exists_index, and_imp,
                 forall_apply_eq_imp_iff₂, setsEqual_dedup_iff]
      constructor
      · rintro ⟨hlen, -, hall⟩
        refine ⟨hlen, ?_⟩
        have hhead : ∀ o ∈ o0 :: rest, o.effects.toFinset = o0.effects.toFinset := by
          intro o ho
          rcases List.mem_cons.mp ho with rfl | ho
          · rfl
          · exact hall o ho
        intro o1 h1 o2 h2
        rw [hhead o1 h1, hhead o2 h2]
      · rintro ⟨hlen, hpair⟩
        refine ⟨hlen, trivial, ?_⟩
        intro o ho
        exact hpair o (List.mem_cons_of_mem _ ho) o0 (List.mem_cons_self _ _)

/-- The truthy `min_trust` / `min_guard` guard of `determineEnding`
coincides with the spec's "at least the threshold when specified" reading
whenever the compared stat is non-negative (a `0` threshold is falsy in
JS, but a non-negative stat passes it either way). -/
theorem code_min_check (x m : Int) (hx : 0 ≤ x) :
    (!(m != 0 && decide (x < m))) = decide (m ≤ x) := by
  by_cases hm : m = 0
  · subst hm
    simp [hx]
  · have hm' : (m != 0) = true := by simpa using hm
    rw [hm']
    simp only [Bool.true_and]
    rw [← decide_not]
    simp [not_lt]

/-- On non-negative trust and guard, the code's candidate test agrees with
the spec-worded one. -/
theorem endingMatches_eq_spec (ps : PlayerState) (e : Ending)
    (ht : 0 ≤ ps.trust) (hg : 0 ≤ ps.guard) :
    endingMatches ps e = endingMatchesSpec ps e := by
  unfold endingMatches endingMatchesSpec
  congr 1
  · congr 1
    cases e.min_trust with
    | none => rfl
    | some m => exact code_min_check ps.trust m ht
  · cases e.min_guard with
    | none => rfl
    | some m => exact code_min_check ps.guard m hg

/-! Claim theorems. -/

/-- Claim C1: for every authored dataset (decision ids are unique JSON
keys) and every decision in it, the validator reports a `GHOST_DECISION`
error for the decision iff it has at least two options and the per-option
effect-id sets (each option's effects list deduplicated into an unordered
set) are pairwise identical; decisions with fewer than two options are
never flagged. -/
theorem C1_ghost_decision_iff (ds : Dataset) (d : Decision)
    (hmem : d ∈ ds.decisions)
    (hnodup : (ds.decisions.map (fun x => x.id)).Nodup) :
    d.id ∈ ghostDecisionIds ds ↔
      (2 ≤ d.options.length ∧ ∀ o1 ∈ d.options, ∀ o2 ∈ d.options,
        o1.effects.toFinset = o2.effects.toFinset) := by
  rw [← ghostDecisionCheck_iff]
  unfold ghostDecisionIds
  simp only [List.mem_map, List.mem_filter]
  constructor
  · rintro ⟨d', ⟨hd'mem, hd'check⟩, hid⟩
    have hde : d' = d := List.inj_on_of_nodup_map hnodup hd'mem hmem hid
    rwa [hde] at hd'check
  · intro hcheck
    exact ⟨d, ⟨hmem, hcheck⟩, rfl⟩

/-- Witness for C1 at a concrete dataset: the decision whose two options
produce `{e1, e2}` up to order and duplicates is flagged. -/
theorem C1_ghost_decision_witness :
    ghostD.id ∈ ghostDecisionIds gdDs :=
  (C1_ghost_decision_iff gdDs ghostD (by decide) (by decide)).mpr (by decide)

/-- Counterexample to claim C3 as stated: `e1` is produced, its type is
`flag` (neither `stat` nor `arc`), and `consumersOf` is empty, yet the
validator does not flag it, because its inline `consumed_by` list is
non-empty. -/
theorem C3_ghost_effect_cex :
    producersOf cexDs3 "e1" ≠ [] ∧
    findEffect cexDs3 "e1" =
      some { id := "e1", type := "flag", consumed_by := ["c_x"] } ∧
    consumersOf cexDs3 "e1" = [] ∧
    validatorGhostEffect cexDs3 "e1" = false := by decide

/-- Claim C3 as amended: for a produced effect in the catalog whose type
is neither `stat` nor `arc`, the validator emits a `GHOST_EFFECT` warning
iff it has no consumers AND its inline `consumed_by` list is empty or
absent. -/
theorem C3_ghost_effect_amended (ds : Dataset) (eid : String) (e : Effect)
    (hfind : findEffect ds eid = some e)
    (hprod : producersOf ds eid ≠ [])
    (hstat : e.type ≠ "stat") (harc : e.type ≠ "arc") :
    (validatorGhostEffect ds eid = true ↔
      (consumersOf ds eid = [] ∧ e.consumed_by = [])) := by
  unfold validatorGhostEffect
  rw [hfind]
  have hprod' : (producersOf ds eid).isEmpty = false := by
    cases h : (producersOf ds eid).isEmpty
    · rfl
    · exact absurd (List.isEmpty_iff.mp h) hprod
  have hs : (e.type != "stat") = true := by simpa using hstat
  have ha : (e.type != "arc") = true := by simpa using harc
  simp [hprod', hs, ha, List.isEmpty_iff]

/-- Witness for the amended C3: a produced, override-free flag effect with
no consumers is flagged. -/
theorem C3_ghost_effect_witness :
    validatorGhostEffect wDs3 "e_g" = true ↔
      (consumersOf wDs3 "e_g" = [] ∧
       ({ id := "e_g", type := "flag" } : Effect).consumed_by = []) :=
  C3_ghost_effect_amended wDs3 "e_g" { id := "e_g", type := "flag" }
    (by decide) (by decide) (by decide) (by decide)

/-- Claim C5: a `stat` effect whose `stat` field resolves to a current
value `v` sets that stat to `min(100, max(0, v + delta))`; the model is a
total function, so no stat application throws on overflow or
underflow. -/
theorem C5_stat_clamp (cat : List Effect) (eid : String) (e : Effect)
    (ps : PlayerState) (now : Nat) (v : Int)
    (hfind : cat.find? (fun x => x.id == eid) = some e)
    (htype : e.type = "stat")
    (hv : statGet ps e.stat = some v) :
    statGet (applyEffect cat eid now ps).2 e.stat =
      some (min 100 (max 0 (v + e.delta))) := by
  unfold applyEffect
  rw [hfind]
  have htype' : (e.type == "stat") = true := by simpa using htype
  simp only [htype', if_true]
  rw [hv]
  simp only
  rw [statGet_statSet ps e.stat v (clampStat (v + e.delta)) hv, clampStat_eq]

/-- Witness for C5 on the spec's two examples: trust 10 with delta −30
clamps to 0, trust 90 with delta +150 clamps to 100. -/
theorem C5_stat_clamp_witness :
    statGet (applyEffect [statMinus30] "s1" 0 psTrust10).2 "trust" = some 0 ∧
    statGet (applyEffect [statPlus150] "s2" 0 psTrust90).2 "trust" = some 100 :=
  ⟨(C5_stat_clamp [statMinus30] "s1" statMinus30 psTrust10 0 10
      (by decide) (by decide) (by decide)).trans (by decide),
   (C5_stat_clamp [statPlus150] "s2" statPlus150 psTrust90 0 90
      (by decide) (by decide) (by decide)).trans (by decide)⟩

/-- Counterexample to claim C9 as stated: `"activeFlags"` and
`"toString"` are not among the four stat names, yet `getStat` returns
the flags collection for the first and the member inherited from
`Object.prototype` for the second — both truthy in JS, so `|| 0` never
applies and the number 0 is not returned. -/
theorem C9_getStat_cex :
    getStat initState.ps "activeFlags" ≠ GetStatResult.num 0 ∧
    getStat initState.ps "toString" ≠ GetStatResult.num 0 := by decide

/-- Claim C9 as amended: for every name that is neither one of the four
stat names, nor one of the three collection-valued own properties
(`activeFlags`, `memories`, `arcFlags`), nor one of the property names
every plain object inherits from `Object.prototype`, `getStat` returns
the number 0; the model is a pure function of the player state, so it
never mutates it. -/
theorem C9_getStat_amended (ps : PlayerState) (name : String)
    (h : name ∉ ["trust", "guard", "honesty", "vulnerability",
                 "activeFlags", "memories", "arcFlags"])
    (hp : name ∉ objectProtoNames) :
    getStat ps name = GetStatResult.num 0 := by
  simp only [List.mem_cons, List.not_mem_nil, or_false, not_or] at h
  obtain ⟨h1, h2, h3, h4, h5, h6, h7⟩ := h
  simp [getStat, h1, h2, h3, h4, h5, h6, h7, hp]

/-- Witness for the amended C9 at a concrete unknown name. -/
theorem C9_getStat_witness :
    getStat initState.ps "someOtherKey" = GetStatResult.num 0 :=
  C9_getStat_amended initState.ps "someOtherKey" (by decide) (by decide)

/-- Claim C6 fails on the code: `exportState` serializes the flat
`getState` shape (stats at top level), while `#restoreState` only applies
stats from a nested `stats` field, so importing an exported snapshot
replaces flags / memories / arcs / history but silently keeps the current
stats.  Here the snapshot records trust 5 yet after the import trust is
still the target state's 50, while the flag list was replaced. -/
theorem C6_import_shape_mismatch :
    (importState importTarget (exportState exportSrc)).ps.trust = 50 ∧
    exportSrc.ps.trust = 5 ∧
    (importState importTarget (exportState exportSrc)).ps.activeFlags = ["f1"] ∧
    (importState importTarget (exportState exportSrc)).ps.trust ≠
      exportSrc.ps.trust := by
  refine ⟨?_, rfl, ?_, ?_⟩ <;> decide

/-- Claim C7: exporting the player state and importing the export yields
the very same state (stats, flag set, arc set, memory records in order,
history in order).  The `Nodup` hypotheses record that `activeFlags` and
`arcFlags` are JS `Set`s, hence duplicate-free in every reachable
state. -/
theorem C7_export_import_roundtrip (st : EngineState)
    (hflags : st.ps.activeFlags.Nodup) (harcs : st.ps.arcFlags.Nodup) :
    importState st (exportState st) = st := by
  obtain ⟨⟨t, g, h, v, fl, mem, arc⟩, hist⟩ := st
  have e1 : jsNewSet (jStrList (JVal.arr (fl.map JVal.str))) = fl := by
    rw [jStrList_map_str]
    exact jsNewSet_eq_of_nodup fl hflags
  have e2 : jsNewSet (jStrList (JVal.arr (arc.map JVal.str))) = arc := by
    rw [jStrList_map_str]
    exact jsNewSet_eq_of_nodup arc harcs
  simp [importState, restoreState, exportState, jGet, jTruthy,
        List.find?_cons, e1, e2, jMemList_map, jHistList_map]

/-- Witness for C7 at a state with every collection inhabited. -/
theorem C7_export_import_witness :
    importState richState (exportState richState) = richState :=
  C7_export_import_roundtrip richState (by decide) (by decide)

/-- Claim C8: on non-negative trust and guard (all reachable stats are
clamped into `[0, 100]`), `determineEnding` returns the first candidate,
in authored order, whose `requires` ids are all active flags or arc flags
and whose `min_trust` / `min_guard` thresholds, when specified, are met —
falling back to the canonical record with id `default`. -/
theorem C8_determine_ending (ps : PlayerState)
    (endings : List (String × Ending))
    (ht : 0 ≤ ps.trust) (hg : 0 ≤ ps.guard) :
    determineEnding ps endings =
      (endings.find? (fun p => endingMatchesSpec ps p.2)).getD defaultEnding := by
  induction endings with
  | nil => rfl
  | cons p rest ih =>
      obtain ⟨eid, e⟩ := p
      rw [determineEnding, List.find?_cons]
      rw [endingMatches_eq_spec ps e ht hg]
      by_cases hm : endingMatchesSpec ps e = true
      · simp [hm]
      · have hm' : endingMatchesSpec ps e = false := by
          cases hb : endingMatchesSpec ps e
          · rfl
          · exact absurd hb hm
        simp [hm', ih]

/-- Witness for C8 at the spec's scenario: candidates
`[A (min_trust 20), B (requires e_x), default]` with trust 25 and no
flags yield ending `A`. -/
theorem C8_determine_ending_witness :
    determineEnding ps25 scenEndings = ("A", { min_trust := some 20 }) := by
  rw [C8_determine_ending ps25 scenEndings (by decide) (by decide)]
  decide

/-- Claim C4: `makeChoice` throws iff the decision id is not in the
catalog or the option id is not among the found decision's options; the
throw happens before any mutation, so the engine state comes back
unchanged; effect ids absent from the effect catalog never throw — they
are skipped (excluded from the applied-effects list and with no state
change) while every other listed effect still applies, in order. -/
theorem C4_makeChoice_contract (cat : List Effect) (decs : List Decision)
    (st : EngineState) (did oid : String) (now : Nat) :
    ((∃ msg, (makeChoice cat decs st did oid now).1 = .error msg) ↔
       ((∀ d ∈ decs, d.id ≠ did) ∨
        (∃ d, decs.find? (fun x => x.id == did) = some d ∧
              ∀ o ∈ d.options, o.id ≠ oid))) ∧
    (∀ msg, (makeChoice cat decs st did oid now).1 = .error msg →
       (makeChoice cat decs st did oid now).2 = st) ∧
    (∀ d o, decs.find? (fun x => x.id == did) = some d →
       d.options.find? (fun x => x.id == oid) = some o →
       ∃ res, (makeChoice cat decs st did oid now).1 = .ok res ∧
         res.effects.map Prod.fst =
           o.effects.filter
             (fun eid => (cat.find? (fun e => e.id == eid)).isSome) ∧
         (makeChoice cat decs st did oid now).2.ps =
           (o.effects.filter
             (fun eid => (cat.find? (fun e => e.id == eid)).isSome)).foldl
             (fun ps eid => (applyEffect cat eid now ps).2) st.ps) := by
  cases hd : decs.find? (fun x => x.id == did) with
  | none =>
      have hdall : ∀ x ∈ decs, x.id ≠ did := by
        intro x hx
        have hne := List.find?_eq_none.mp hd x hx
        simpa using hne
      refine ⟨?_, ?_, ?_⟩
      · exact iff_of_true
          ⟨"Unknown decision: " ++ did, by simp [makeChoice, hd]⟩
          (Or.inl hdall)
      · intro msg _
        simp [makeChoice, hd]
      · intro d o hfd _
        cases hfd
  | some d0 =>
      cases ho : d0.options.find? (fun x => x.id == oid) with
      | none =>
          have hoall : ∀ x ∈ d0.options, x.id ≠ oid := by
            intro x hx
            have hne := List.find?_eq_none.mp ho x hx
            simpa using hne
          refine ⟨?_, ?_, ?_⟩
          · exact iff_of_true
              ⟨"Unknown option: " ++ oid ++ " for decision " ++ did,
               by simp [makeChoice, hd, ho]⟩
              (Or.inr ⟨d0, rfl, hoall⟩)
          · intro msg _
            simp [makeChoice, hd, ho]
          · intro d o hfd hfo
            injection hfd with hfd
            subst hfd
            rw [ho] at hfo
            cases hfo
      | some o0 =>
          have hdmem : d0 ∈ decs := List.mem_of_find?_eq_some hd
          have hdid : d0.id = did := by
            have hp := List.find?_some hd
            simpa using hp
          have homem : o0 ∈ d0.options := List.mem_of_find?_eq_some ho
          have hoid : o0.id = oid := by
            have hp := List.find?_some ho
            simpa using hp
          refine ⟨?_, ?_, ?_⟩
          · refine iff_of_false ?_ ?_
            · rintro ⟨msg, hmsg⟩
              simp [makeChoice, hd, ho] at hmsg
            · rintro (hleft | ⟨d1, hd1, hall⟩)
              · exact hleft d0 hdmem hdid
              · injection hd1 with hd1
                subst hd1
                exact hall o0 homem hoid
          · intro msg hmsg
            simp [makeChoice, hd, ho] at hmsg
          · intro d o hfd hfo
            injection hfd with hfd
            subst hfd
            rw [ho] at hfo
            injection hfo with hfo
            subst hfo
            simp only [makeChoice, hd, ho]
            refine ⟨_, rfl, ?_, ?_⟩
            · simpa using applyEffects_fst cat now o0.effects [] st.ps
            · simpa using applyEffects_snd cat now o0.effects [] st.ps

/-- Witness for C4: choosing `optA` of `d1` applies the flag and stat
effects and silently skips the id `missing`, which is absent from the
catalog. -/
theorem C4_makeChoice_witness :
    ∃ res, (makeChoice cat45 decs45 initState "d1" "optA" 9).1 =
        Except.ok res ∧
      res.effects.map Prod.fst = ["f1", "s1"] := by
  obtain ⟨res, h1, h2, -⟩ :=
    (C4_makeChoice_contract cat45 decs45 initState "d1" "optA" 9).2.2
      d45 o45 (by decide) (by decide)
  exact ⟨res, h1, h2.trans (by decide)⟩

/-- Counterexample to claim C2 as stated: one consumer checking `e_foo` in
`tape1`, one decision in `tape2` producing `e_foo` from each of its two
options — a single (consumer, effect, decision) triple, yet the validator
reports two `BACKWARD_DEPENDENCY` errors, one per production
occurrence. -/
theorem C2_backward_dependency_cex :
    (backwardErrors dupDs2).length = 2 ∧ (bdTriples dupDs2).length = 1 := by
  decide

/-- Claim C2 as amended: a `BACKWARD_DEPENDENCY` error carrying a given
consumer tape, producer tape and effect id is reported iff a matching
triple exists — a consumer whose tape is in the authored ordering checking
that effect, and a decision producing the effect whose tape sits strictly
after the consumer's (the validator emits one error per production
occurrence, so a triple may be reported more than once); in the spec's
scenario (`[tape1, tape2]`, one consumer in `tape1` checking `e_foo`, one
decision in `tape2` producing it once) exactly one error, referencing
`tape1` / `tape2` / `e_foo`, is reported. -/
theorem C2_backward_dependency_amended :
    (∀ (ds : Dataset) (err : BDError),
       err ∈ backwardErrors ds ↔
         ∃ c ∈ ds.consumers, ∃ ci, tapeIndex ds.tapes c.tape = some ci ∧
           err.consumerTape = c.tape ∧ err.effectId ∈ c.checks ∧
           ∃ decId ∈ producersOf ds err.effectId, ∃ d,
             findDecision ds decId = some d ∧ err.producerTape = d.tape ∧
             ∃ pi, tapeIndex ds.tapes d.tape = some pi ∧ ci < pi) ∧
    backwardErrors scenDs2 = [⟨"tape1", "tape2", "e_foo"⟩] := by
  constructor
  · intro ds err
    unfold backwardErrors
    simp only [List.mem_flatMap, mem_optList, mem_ite_singleton]
    constructor
    · rintro ⟨c, hc, ci, hci, eid, heid, decId, hdec, d, hd, pi, hpi, hlt, herr⟩
      subst herr
      exact ⟨c, hc, ci, hci, rfl, heid, decId, hdec, d, hd, rfl, pi, hpi, hlt⟩
    · rintro ⟨c, hc, ci, hci, hct, heid, decId, hdec, d, hd, hpt, pi, hpi, hlt⟩
      obtain ⟨a, b, ee⟩ := err
      dsimp only at hct hpt heid hdec
      subst hct
      subst hpt
      exact ⟨c, hc, ci, hci, ee, heid, decId, hdec, d, hd, pi, hpi, hlt, rfl⟩
  · decide

/-- Counterexample to claim C10 as stated: a flag effect defined in the
catalog but never produced is reported by the runtime `detectGhosts`, yet
the validator's ghost-effect check (which only walks produced effects and
files this case under `UNUSED_EFFECT`) does not flag it. -/
theorem C10_detect_ghosts_cex :
    "e_u" ∈ (detectGhosts cexDs10).map (fun g => g.effectId) ∧
    validatorGhostEffect cexDs10 "e_u" = false := by decide

/-- Claim C10 as amended: restricted to effects that are in the catalog
(whose ids, being JSON keys, are unique), produced by at least one
decision, and without an inline `consumed_by` override, the runtime ghost
detector and the validator's ghost-effect check flag exactly the same
effect ids.  They diverge on unproduced catalog effects, on produced ids
missing from the catalog, and on effects carrying an override. -/
theorem C10_detect_ghosts_amended (ds : Dataset) (e : Effect)
    (hnodup : (ds.effects.map (fun x => x.id)).Nodup)
    (hmem : e ∈ ds.effects)
    (hprod : producersOf ds e.id ≠ [])
    (hover : e.consumed_by = []) :
    (e.id ∈ (detectGhosts ds).map (fun g => g.effectId) ↔
      validatorGhostEffect ds e.id = true) := by
  have hfind : findEffect ds e.id = some e :=
    find?_eq_of_nodup_keys ds.effects (fun x => x.id) e hnodup hmem
  have hmemiff : (e.id ∈ (detectGhosts ds).map (fun g => g.effectId)) ↔
      (e.type != "stat" && e.type != "arc" &&
        (consumersOf ds e.id).isEmpty) = true := by
    unfold detectGhosts
    rw [List.map_map]
    simp only [List.mem_map, List.mem_filter, Function.comp]
    constructor
    · rintro ⟨e', ⟨he'mem, he'cond⟩, hid⟩
      have he : e' = e := List.inj_on_of_nodup_map hnodup he'mem hmem hid
      rwa [he] at he'cond
    · intro hcond
      exact ⟨e, ⟨hmem, hcond⟩, rfl⟩
  rw [hmemiff]
  unfold validatorGhostEffect
  rw [hfind]
  have hprod' : (producersOf ds e.id).isEmpty = false := by
    cases hI : (producersOf ds e.id).isEmpty
    · rfl
    · exact absurd (List.isEmpty_iff.mp hI) hprod
  simp [hprod', hover]

/-- Witness for the amended C10: a produced, catalogued, override-free
flag effect with no consumers is flagged by both sides. -/
theorem C10_detect_ghosts_witness :
    ("e_g" ∈ (detectGhosts wDs10).map (fun g => g.effectId) ↔
      validatorGhostEffect wDs10 "e_g" = true) :=
  C10_detect_ghosts_amended wDs10 eG10 (by decide) (by decide) (by decide) rfl

end SeedArchive
